import Mathlib

/-!
Verification of the producer scheduling engine of dcos-kafka-load-test
(src/producer.go and the variant in src/unnamed/part_000), shallowly
embedded in Lean 4.  Machine integers are modelled as Nat/Int, Go float64
arithmetic as exact rational arithmetic over ℚ (exact for the integer-valued
inputs the program feeds these functions), and fallible operations as
explicit outcome parameters.
-/

namespace KafkaLoad

/-- Constant ProducerPerWorker from producer.go line 14 (the float64 literal 5.0;
integer-valued, modelled as a natural number). -/
def ProducerPerWorker : ℕ := 5

/-- Worker-count configuration. Modelled from usage in producer.go: the config
struct itself is not under src/, but producer.go reads config.Workers.producers
and config.Workers.creators, both non-negative counts. -/
structure workersConfig where
  producers : ℕ
  creators : ℕ
deriving DecidableEq

/-- Input configuration. Modelled from usage in producer.go: msgRate is a uint64
(line 141), batchSize an int used as a length, topic a string, brokers the
broker endpoint list. -/
structure inputConfig where
  msgRate : ℕ
  Workers : workersConfig
  batchSize : ℕ
  topic : String
  brokers : List String
deriving DecidableEq

/-- producerMetrics from producer.go lines 26-29: two uint64 counters, only ever
incremented, so modelled as naturals. -/
structure producerMetrics where
  sentBatches : ℕ
  errors : ℕ
deriving DecidableEq

/-- initMetrics from producer.go lines 46-48. -/
def initMetrics : producerMetrics := ⟨0, 0⟩

/-- The int64 value produced on amd64 by Go's implementation-defined conversion
of a non-finite float64 (+Inf or NaN) to int64: the minimum int64. -/
def goInt64OfNonFinite : ℤ := -(2 ^ 63)

/-- computeTickerInterval from producer.go lines 141-143:
int64((1.0 / (float64(msgRate) / float64(workerCount))) * 1e9).
For msgRate > 0 the float expression is positive, so the int64 conversion
truncates toward zero, i.e. takes the floor; the float64 arithmetic is modelled
exactly over ℚ.  For msgRate = 0 the expression is +Inf (workerCount > 0) or
NaN (workerCount = 0) and the conversion is implementation-defined garbage
(minimum int64 on amd64).  For msgRate > 0 and workerCount = 0 Go yields
1/(+Inf) = 0, which agrees with the ℚ convention division-by-zero = 0 used in
the else branch.  The function has no error path: its Go result type is int64. -/
def computeTickerInterval (msgRate : ℕ) (workerCount : ℕ) : ℤ :=
  if msgRate = 0 then goInt64OfNonFinite
  else ⌊(1 / ((msgRate : ℚ) / (workerCount : ℚ))) * 1000000000⌋

/-- The exact (pre-truncation) rational value of the float expression inside
computeTickerInterval. -/
def tickerIntervalExact (msgRate workerCount : ℚ) : ℚ :=
  (1 / (msgRate / workerCount)) * 1000000000

/-- computeClientAmount from producer.go lines 94-96:
int(math.Ceil(workers / writers)).  Both parameters are float64 in Go but every
call site passes integer-valued arguments (float64(config.Workers.producers)
and the literal 5.0), for which ℚ arithmetic is exact; the result of math.Ceil
is a non-negative whole float, whose int conversion is exact. -/
def computeClientAmount (workers : ℚ) (writers : ℚ) : ℤ :=
  ⌈workers / writers⌉

/-- Connection index used by worker i in StartProducers (producer.go line 54):
clients[i / int(ProducerPerWorker)], integer division. -/
def workerClientIndex (i : ℕ) : ℕ :=
  i / ProducerPerWorker

/-- The connection assignment produced by the StartProducers loop
(producer.go lines 53-56): worker indices 0..count-1 in order, each mapped to
its client index. -/
def startProducersAssignment (count : ℕ) : List ℕ :=
  (List.range count).map workerClientIndex

/-- A broker-ready message envelope.  Modelled from the spec: the builder
BuildProducerMessage lives in a repository file not under src/; the spec says
the worker wraps the polled payload into an envelope addressed to the
configured topic.  Payload bytes are modelled as List ℕ. -/
structure ProducerMessage where
  topic : String
  value : List ℕ
deriving DecidableEq

/-- Modelled from the spec: BuildProducerMessage(topic, payload) wraps a polled
payload into an envelope addressed to the configured topic (producer.go line
106 call site; the builder's own file is not under src/). -/
def BuildProducerMessage (topic : String) (m : List ℕ) : ProducerMessage :=
  ⟨topic, m⟩

/-- The per-worker mutable state of startSchedule (producer.go lines 98-128):
the local msgBatch buffer plus the two metric counters the loop body mutates.
The counters are shared across workers in Go; for reasoning about one worker's
flush attempts the shared counters are modelled as part of its state, each
atomic increment being one state update. -/
structure workerState where
  msgBatch : List ProducerMessage
  sentBatches : ℕ
  errors : ℕ
deriving DecidableEq

/-- Worker state at loop entry: empty batch (producer.go line 100) and the
zero-initialised metrics of initMetrics. -/
def initWorkerState : workerState :=
  ⟨[], initMetrics.sentBatches, initMetrics.errors⟩

/-- The body of one ticker iteration of startSchedule (producer.go lines
101-118), excluding the stop-signal select:
- m is the pollMessage result, none modelling the nil branch (line 103) that
  only prints and sends nothing;
- sendErr is the error result of p.SendMessages for this tick, consulted only
  if a flush happens this tick.
Following the source: append the built message, skip the send unless the batch
length equals batchSize; otherwise increment sentBatches, send, clear the
batch, and increment errors if the send returned an error.  The second
component returns the batch handed to SendMessages when a flush occurred. -/
def tickStep (cfg : inputConfig) (m : Option (List ℕ)) (sendErr : Option String)
    (s : workerState) : workerState × Option (List ProducerMessage) :=
  match m with
  | none => (s, none)
  | some payload =>
    let msgBatch := s.msgBatch ++ [BuildProducerMessage cfg.topic payload]
    if msgBatch.length ≠ cfg.batchSize then
      ({ s with msgBatch := msgBatch }, none)
    else
      match sendErr with
      | none => (⟨[], s.sentBatches + 1, s.errors⟩, some msgBatch)
      | some _ => (⟨[], s.sentBatches + 1, s.errors + 1⟩, some msgBatch)

/-- A run of consecutive ticker iterations of startSchedule: each list entry is
one tick's (pollMessage result, SendMessages result).  Returns the final state
and the list of batches handed to SendMessages, in order. -/
def runSchedule (cfg : inputConfig) :
    List (Option (List ℕ) × Option String) → workerState →
    workerState × List (List ProducerMessage)
  | [], s => (s, [])
  | t :: ticks, s =>
    let step := tickStep cfg t.1 t.2 s
    let rest := runSchedule cfg ticks step.1
    (rest.1, step.2.toList ++ rest.2)

/-- The messages appended to the batch over a run: each tick with a non-nil
poll contributes BuildProducerMessage(topic, payload), in tick order. -/
def polledMessages (cfg : inputConfig)
    (ticks : List (Option (List ℕ) × Option String)) : List ProducerMessage :=
  ticks.filterMap (fun t => t.1.map (BuildProducerMessage cfg.topic))

/-- createClients from producer.go lines 82-92, as a fuel-indexed loop:
clients := make([]sarama.Client, amount) starts as a slice of amount nil
entries; opening client i (openAt i models sarama.NewClient for the i-th
iteration) either fills slot i or makes the function return the
partially-filled slice together with the error.  No client is ever closed
here.  Clients are modelled as ℕ handles, slots as Option ℕ (none = nil). -/
def createClientsLoop (openAt : ℕ → Except String ℕ) :
    ℕ → ℕ → List (Option ℕ) → List (Option ℕ) × Option String
  | 0, _, clients => (clients, none)
  | fuel + 1, i, clients =>
    match openAt i with
    | .error e => (clients, some e)
    | .ok c => createClientsLoop openAt fuel (i + 1) (clients.set i (some c))

/-- createClients (producer.go lines 82-92). -/
def createClients (amount : ℕ) (openAt : ℕ → Except String ℕ) :
    List (Option ℕ) × Option String :=
  createClientsLoop openAt amount 0 (List.replicate amount none)

/-- The kafkaProducer struct from producer.go lines 16-24, with the broker
client slice as Option ℕ handles and the stop channel represented by its
capacity. -/
structure kafkaProducer where
  input : inputConfig
  clients : List (Option ℕ)
  stopCapacity : ℕ
  metrics : producerMetrics
  interval : ℤ
deriving DecidableEq

/-- The KafkaProducer constructor, producer.go lines 31-44.  Faithful to the
source: when createClients returns an error the constructor only prints it
(lines 37-40) — the error is dropped, no opened client is closed, and the pool
is returned built from whatever partial client slice came back.  The stop
channel is created with capacity config.Workers.creators (line 42). -/
def KafkaProducer (config : inputConfig) (openAt : ℕ → Except String ℕ) :
    kafkaProducer :=
  let interval := computeTickerInterval config.msgRate config.Workers.producers
  let clientCount :=
    (computeClientAmount (config.Workers.producers : ℚ) (ProducerPerWorker : ℚ)).toNat
  let created := createClients clientCount openAt
  { input := config
    clients := created.1
    stopCapacity := config.Workers.creators
    metrics := initMetrics
    interval := interval }

/-- Number of stop signals StopProducers sends on the stop channel
(producer.go lines 60-62): one per producer worker. -/
def stopSignalsSent (k : kafkaProducer) : ℕ :=
  k.input.Workers.producers

/-! ## Helper lemmas about the tick loop -/

/-- Characterisation of a tick that hands a batch to SendMessages: the poll
returned a payload, the flushed batch is the old batch plus the new message,
its length is exactly the configured batch size, the buffer is left empty,
sentBatches was incremented (before the send, hence regardless of the send
outcome), and errors was incremented exactly when the send failed. -/
theorem tickStep_flush_cases (cfg : inputConfig) (m : Option (List ℕ))
    (e : Option String) (s s' : workerState) (b : List ProducerMessage)
    (h : tickStep cfg m e s = (s', some b)) :
    ∃ payload, m = some payload ∧
      b = s.msgBatch ++ [BuildProducerMessage cfg.topic payload] ∧
      b.length = cfg.batchSize ∧
      s'.msgBatch = [] ∧
      s'.sentBatches = s.sentBatches + 1 ∧
      ((e = none ∧ s'.errors = s.errors) ∨ (e ≠ none ∧ s'.errors = s.errors + 1)) := by
  cases m with
  | none => simp [tickStep] at h
  | some payload =>
    refine ⟨payload, rfl, ?_⟩
    simp only [tickStep] at h
    by_cases hlen :
        (s.msgBatch ++ [BuildProducerMessage cfg.topic payload]).length ≠ cfg.batchSize
    · rw [if_pos hlen] at h
      simp at h
    · rw [if_neg hlen] at h
      push_neg at hlen
      cases e with
      | none =>
        rw [Prod.mk.injEq] at h
        obtain ⟨hs, hb⟩ := h
        obtain rfl := Option.some.inj hb
        subst hs
        exact ⟨rfl, hlen, rfl, rfl, Or.inl ⟨rfl, rfl⟩⟩
      | some msg =>
        rw [Prod.mk.injEq] at h
        obtain ⟨hs, hb⟩ := h
        obtain rfl := Option.some.inj hb
        subst hs
        exact ⟨rfl, hlen, rfl, rfl, Or.inr ⟨Option.some_ne_none msg, rfl⟩⟩

/-- Characterisation of a tick that does not flush: the batch grows by the
polled message (if any) and both counters are untouched. -/
theorem tickStep_no_flush (cfg : inputConfig) (m : Option (List ℕ))
    (e : Option String) (s s' : workerState)
    (h : tickStep cfg m e s = (s', none)) :
    s'.msgBatch = s.msgBatch ++ (m.map (BuildProducerMessage cfg.topic)).toList ∧
    s'.sentBatches = s.sentBatches ∧
    s'.errors = s.errors := by
  cases m with
  | none =>
    simp only [tickStep] at h
    rw [Prod.mk.injEq] at h
    obtain ⟨hs, -⟩ := h
    subst hs
    simp
  | some payload =>
    simp only [tickStep] at h
    by_cases hlen :
        (s.msgBatch ++ [BuildProducerMessage cfg.topic payload]).length ≠ cfg.batchSize
    · rw [if_pos hlen, Prod.mk.injEq] at h
      obtain ⟨hs, -⟩ := h
      subst hs
      simp
    · rw [if_neg hlen] at h
      cases e with
      | none => simp at h
      | some msg => simp at h

/-- The messages a run appends, tick by tick. -/
theorem polledMessages_cons (cfg : inputConfig)
    (t : Option (List ℕ) × Option String)
    (ticks : List (Option (List ℕ) × Option String)) :
    polledMessages cfg (t :: ticks)
      = (t.1.map (BuildProducerMessage cfg.topic)).toList ++ polledMessages cfg ticks := by
  cases ht : t.1 <;> simp [polledMessages, ht]

/-- Run invariants of the startSchedule loop, for any start state s:
(1) the concatenation of all batches handed to SendMessages, followed by the
residual batch, is exactly the start batch followed by all polled messages in
order (so every polled message is sent at most once and a failed batch is
never resent); (2) sentBatches grows by exactly the number of flush attempts;
(3) errors grows by at most the number of flush attempts; (4) every flushed
batch has exactly the configured batch size. -/
theorem runSchedule_invariants (cfg : inputConfig)
    (ticks : List (Option (List ℕ) × Option String)) : ∀ s : workerState,
    ((runSchedule cfg ticks s).2.flatten ++ (runSchedule cfg ticks s).1.msgBatch
        = s.msgBatch ++ polledMessages cfg ticks) ∧
    ((runSchedule cfg ticks s).1.sentBatches
        = s.sentBatches + (runSchedule cfg ticks s).2.length) ∧
    ((runSchedule cfg ticks s).1.errors
        ≤ s.errors + (runSchedule cfg ticks s).2.length) ∧
    (∀ b ∈ (runSchedule cfg ticks s).2, b.length = cfg.batchSize) := by
  induction ticks with
  | nil => intro s; simp [runSchedule, polledMessages]
  | cons t ticks ih =>
    intro s
    rcases hstep : tickStep cfg t.1 t.2 s with ⟨s1, fl⟩
    obtain ⟨ih1, ih2, ih3, ih4⟩ := ih s1
    rw [polledMessages_cons]
    cases fl with
    | none =>
      obtain ⟨hb, hsent, herr⟩ := tickStep_no_flush cfg t.1 t.2 s s1 hstep
      simp only [runSchedule, hstep, Option.toList_none, List.nil_append]
      refine ⟨?_, ?_, ?_, ih4⟩
      · rw [ih1, hb, List.append_assoc]
      · rw [ih2, hsent]
      · rw [herr] at ih3
        exact ih3
    | some b =>
      obtain ⟨payload, hm, hb, hlen, hbatch, hsent, herrs⟩ :=
        tickStep_flush_cases cfg t.1 t.2 s s1 b hstep
      simp only [runSchedule, hstep, Option.toList_some, List.singleton_append]
      refine ⟨?_, ?_, ?_, ?_⟩
      · rw [List.flatten_cons, List.append_assoc, ih1, hbatch, List.nil_append, hm, hb]
        simp [List.append_assoc]
      · simp only [List.length_cons]
        rw [ih2, hsent]
        omega
      · have herr1 : s1.errors ≤ s.errors + 1 := by
          rcases herrs with ⟨-, h⟩ | ⟨-, h⟩ <;> omega
        simp only [List.length_cons]
        omega
      · intro b' hb'
        rcases List.mem_cons.mp hb' with rfl | hmem
        · exact hlen
        · exact ih4 b' hmem

/-! ## Theorems -/

/-- C2: computeTickerInterval does NOT fail with a ConfigurationError on zero
inputs — its Go result type is int64 and it has no validation or error path.
At msgRate = 0 the float expression is non-finite and the returned interval is
the implementation-defined garbage conversion (minimum int64 on amd64); at
msgRate = 5, workerCount = 0 it returns 0.  This theorem evaluates the embedded
function at those inputs, exhibiting the divergence from the claim. -/
theorem computeTickerInterval_zero_inputs_no_error :
    computeTickerInterval 0 3 = goInt64OfNonFinite ∧
    computeTickerInterval 0 0 = goInt64OfNonFinite ∧
    computeTickerInterval 5 0 = 0 := by
  refine ⟨rfl, rfl, ?_⟩
  norm_num [computeTickerInterval]

/-- C3: for positive msgRate and workerCount, computeTickerInterval returns the
floor of the exact value workerCount/msgRate seconds expressed in nanoseconds,
and at that exact interval workerCount workers collectively emit exactly
msgRate messages per second. -/
theorem computeTickerInterval_rate_spec (msgRate workerCount : ℕ)
    (hr : 0 < msgRate) (hw : 0 < workerCount) :
    computeTickerInterval msgRate workerCount
        = ⌊tickerIntervalExact msgRate workerCount⌋ ∧
    tickerIntervalExact msgRate workerCount
        = (workerCount : ℚ) / (msgRate : ℚ) * 1000000000 ∧
    (workerCount : ℚ) * (1 / (tickerIntervalExact msgRate workerCount / 1000000000))
        = msgRate := by
  have hr' : (msgRate : ℚ) ≠ 0 := Nat.cast_ne_zero.mpr hr.ne'
  have hw' : (workerCount : ℚ) ≠ 0 := Nat.cast_ne_zero.mpr hw.ne'
  refine ⟨?_, ?_, ?_⟩
  · simp [computeTickerInterval, tickerIntervalExact, hr.ne']
  · unfold tickerIntervalExact
    field_simp
  · unfold tickerIntervalExact
    field_simp
    ring

/-- Witness for C3 at msgRate = 100, workerCount = 4. -/
theorem computeTickerInterval_rate_spec_witness :
    computeTickerInterval 100 4 = ⌊tickerIntervalExact 100 4⌋ ∧
    tickerIntervalExact 100 4 = ((4 : ℕ) : ℚ) / ((100 : ℕ) : ℚ) * 1000000000 ∧
    ((4 : ℕ) : ℚ) * (1 / (tickerIntervalExact 100 4 / 1000000000)) = ((100 : ℕ) : ℚ) := by
  have h := computeTickerInterval_rate_spec 100 4 (by norm_num) (by norm_num)
  simpa using h

/-- C4: computeClientAmount is exactly the ceiling of workerCount/ratio, is
never below 1 when workerCount ≥ 1 and ratio ≥ 1, and takes the values 3, 1, 1
at the representative pairs (12,5), (5,5), (1,5). -/
theorem computeClientAmount_spec (workerCount ratio : ℕ)
    (hw : 1 ≤ workerCount) (hr : 1 ≤ ratio) :
    computeClientAmount (workerCount : ℚ) (ratio : ℚ)
        = ⌈(workerCount : ℚ) / (ratio : ℚ)⌉ ∧
    1 ≤ computeClientAmount (workerCount : ℚ) (ratio : ℚ) ∧
    computeClientAmount 12 5 = 3 ∧
    computeClientAmount 5 5 = 1 ∧
    computeClientAmount 1 5 = 1 := by
  have hw' : (0 : ℚ) < (workerCount : ℚ) := by exact_mod_cast hw
  have hr' : (0 : ℚ) < (ratio : ℚ) := by exact_mod_cast hr
  refine ⟨rfl, ?_, ?_, ?_, ?_⟩
  · have hpos : (0 : ℚ) < (workerCount : ℚ) / (ratio : ℚ) := div_pos hw' hr'
    exact Int.ceil_pos.mpr hpos
  · unfold computeClientAmount
    rw [Int.ceil_eq_iff]; norm_num
  · unfold computeClientAmount
    rw [Int.ceil_eq_iff]; norm_num
  · unfold computeClientAmount
    rw [Int.ceil_eq_iff]; norm_num

/-- Witness for C4 at workerCount = 12, ratio = 5. -/
theorem computeClientAmount_spec_witness :
    computeClientAmount ((12 : ℕ) : ℚ) ((5 : ℕ) : ℚ)
        = ⌈((12 : ℕ) : ℚ) / ((5 : ℕ) : ℚ)⌉ ∧
    1 ≤ computeClientAmount ((12 : ℕ) : ℚ) ((5 : ℕ) : ℚ) ∧
    computeClientAmount 12 5 = 3 ∧
    computeClientAmount 5 5 = 1 ∧
    computeClientAmount 1 5 = 1 :=
  computeClientAmount_spec 12 5 (by norm_num) (by norm_num)

/-- C5: in the StartProducers loop, worker i (0-based, i < count) is assigned
the client at index i / ProducerPerWorker by integer division, and the mapping
is block-contiguous: any worker between two workers sharing a client index
shares it too (so the assignment is not round-robin). -/
theorem startProducers_assignment_spec (count i : ℕ) (hi : i < count) :
    (startProducersAssignment count)[i]? = some (i / ProducerPerWorker) ∧
    (∀ j k, i ≤ j → j ≤ k → workerClientIndex i = workerClientIndex k →
      workerClientIndex j = workerClientIndex i) := by
  constructor
  · simp [startProducersAssignment, workerClientIndex, hi]
  · intro j k hij hjk hik
    have h1 : workerClientIndex i ≤ workerClientIndex j :=
      Nat.div_le_div_right hij
    have h2 : workerClientIndex j ≤ workerClientIndex k :=
      Nat.div_le_div_right hjk
    omega

/-- Witness for C5 at count = 12, i = 7 (worker 7 uses client 1). -/
theorem startProducers_assignment_spec_witness :
    (startProducersAssignment 12)[7]? = some (7 / ProducerPerWorker) ∧
    (∀ j k, 7 ≤ j → j ≤ k → workerClientIndex 7 = workerClientIndex k →
      workerClientIndex j = workerClientIndex 7) :=
  startProducers_assignment_spec 12 7 (by norm_num)

/-- A concrete configuration for counterexamples and witnesses: batch size 1,
4 producer workers, 4 creator workers. -/
def cfgEx : inputConfig := ⟨100, ⟨4, 4⟩, 1, "loadtest", ["broker:9092"]⟩

/-- With every poll of a run returning no message, the run leaves the worker
state untouched and hands nothing to SendMessages. -/
theorem runSchedule_none_polls (cfg : inputConfig)
    (ticks : List (Option (List ℕ) × Option String))
    (hnone : ∀ t ∈ ticks, t.1 = none) :
    ∀ s, runSchedule cfg ticks s = (s, []) := by
  induction ticks with
  | nil => intro s; rfl
  | cons t ticks ih =>
    intro s
    have ht : t.1 = none := hnone t (List.mem_cons_self t ticks)
    have hstep : tickStep cfg t.1 t.2 s = (s, none) := by rw [ht]; rfl
    have ih' := ih (fun u hu => hnone u (List.mem_cons_of_mem t hu)) s
    simp only [runSchedule, hstep, Option.toList_none, List.nil_append, ih']

/-- C1 counterexample: with batch size 1 and a failing send, the flush attempt
raises sentBatches from 0 to 1 — on failure sentBatches is NOT unchanged
(sendErrors increments by 1 as the claim says, but sentBatches increments
too). -/
theorem failed_flush_changes_sentBatches :
    tickStep cfgEx (some [7]) (some "send failed") initWorkerState
      = (⟨[], 1, 1⟩, some [BuildProducerMessage "loadtest" [7]]) ∧
    initWorkerState.sentBatches = 0 ∧
    (tickStep cfgEx (some [7]) (some "send failed") initWorkerState).1.sentBatches
      ≠ initWorkerState.sentBatches := by
  refine ⟨rfl, rfl, by decide⟩

/-- C1 (amended): for every flush attempt, on success sentBatches increments
by exactly 1 and the error counter is unchanged; on failure the error counter
increments by exactly 1 and sentBatches ALSO increments by exactly 1 (the
source increments it before the send, so it counts attempts, not
successes). -/
theorem flush_attempt_metrics (cfg : inputConfig) (m : Option (List ℕ))
    (e : Option String) (s s' : workerState) (b : List ProducerMessage)
    (hflush : tickStep cfg m e s = (s', some b)) :
    (e = none → s'.sentBatches = s.sentBatches + 1 ∧ s'.errors = s.errors) ∧
    (e ≠ none → s'.errors = s.errors + 1 ∧ s'.sentBatches = s.sentBatches + 1) := by
  obtain ⟨p, -, -, -, -, hsent, herrs⟩ := tickStep_flush_cases cfg m e s s' b hflush
  rcases herrs with ⟨he, herr⟩ | ⟨he, herr⟩
  · subst he
    exact ⟨fun _ => ⟨hsent, herr⟩, fun hne => absurd rfl hne⟩
  · exact ⟨fun h0 => absurd h0 he, fun _ => ⟨herr, hsent⟩⟩

/-- Witness for amended C1 at a concrete failed flush. -/
theorem flush_attempt_metrics_witness :
    ((some "send failed" : Option String) = none →
      (⟨[], 1, 1⟩ : workerState).sentBatches = initWorkerState.sentBatches + 1 ∧
      (⟨[], 1, 1⟩ : workerState).errors = initWorkerState.errors) ∧
    ((some "send failed" : Option String) ≠ none →
      (⟨[], 1, 1⟩ : workerState).errors = initWorkerState.errors + 1 ∧
      (⟨[], 1, 1⟩ : workerState).sentBatches = initWorkerState.sentBatches + 1) :=
  flush_attempt_metrics cfgEx (some [7]) (some "send failed") initWorkerState
    ⟨[], 1, 1⟩ [BuildProducerMessage "loadtest" [7]] rfl

/-- C6: a tick hands a batch to SendMessages only when the batch reaches
exactly the configured batch size, and when every poll of a run returns no
message (a source that never yields data) the run leaves the worker state
unchanged — the batch stays empty — and zero sends occur, however many ticks
elapse. -/
theorem flush_only_at_full_batch (cfg : inputConfig) (m : Option (List ℕ))
    (e : Option String) (s s' : workerState) (b : List ProducerMessage)
    (ticks : List (Option (List ℕ) × Option String))
    (hflush : tickStep cfg m e s = (s', some b))
    (hnone : ∀ t ∈ ticks, t.1 = none) :
    b.length = cfg.batchSize ∧
    runSchedule cfg ticks initWorkerState = (initWorkerState, []) := by
  obtain ⟨p, -, -, hlen, -, -, -⟩ := tickStep_flush_cases cfg m e s s' b hflush
  exact ⟨hlen, runSchedule_none_polls cfg ticks hnone initWorkerState⟩

/-- Witness for C6: a concrete successful flush at batch size 1, and three
ticks of an empty source leaving the initial state untouched. -/
theorem flush_only_at_full_batch_witness :
    ([BuildProducerMessage "loadtest" [7]] : List ProducerMessage).length
        = cfgEx.batchSize ∧
    runSchedule cfgEx (List.replicate 3 (none, none)) initWorkerState
        = (initWorkerState, []) :=
  flush_only_at_full_batch cfgEx (some [7]) none initWorkerState
    ⟨[], 1, 0⟩ [BuildProducerMessage "loadtest" [7]]
    (List.replicate 3 (none, none)) rfl (by decide)

/-- C7: after every flush attempt the batch buffer is left empty, whether the
send succeeded or failed, and over any run the batches handed to SendMessages
followed by the residual buffer are exactly the polled messages in order — so
the messages of a failed batch are dropped and never appear in a later send
(no retry of the same batch). -/
theorem batch_cleared_and_never_resent (cfg : inputConfig) (m : Option (List ℕ))
    (e : Option String) (s s' : workerState) (b : List ProducerMessage)
    (ticks : List (Option (List ℕ) × Option String))
    (hflush : tickStep cfg m e s = (s', some b)) :
    s'.msgBatch = [] ∧
    (runSchedule cfg ticks initWorkerState).2.flatten
        ++ (runSchedule cfg ticks initWorkerState).1.msgBatch
      = polledMessages cfg ticks := by
  obtain ⟨p, -, -, -, hbatch, -, -⟩ := tickStep_flush_cases cfg m e s s' b hflush
  refine ⟨hbatch, ?_⟩
  have h := (runSchedule_invariants cfg ticks initWorkerState).1
  simpa [initWorkerState, initMetrics] using h

/-- Witness for C7: a concrete failed flush leaves the buffer empty, and a
two-tick run (one successful send, one failed send) accounts for every polled
message exactly once. -/
theorem batch_cleared_and_never_resent_witness :
    (⟨[], 1, 1⟩ : workerState).msgBatch = [] ∧
    (runSchedule cfgEx [(some [1], none), (some [2], some "boom")] initWorkerState).2.flatten
        ++ (runSchedule cfgEx [(some [1], none), (some [2], some "boom")] initWorkerState).1.msgBatch
      = polledMessages cfgEx [(some [1], none), (some [2], some "boom")] :=
  batch_cleared_and_never_resent cfgEx (some [7]) (some "send failed")
    initWorkerState ⟨[], 1, 1⟩ [BuildProducerMessage "loadtest" [7]]
    [(some [1], none), (some [2], some "boom")] rfl

/-- C10: sentBatches is incremented on every flush attempt regardless of the
send outcome (the source increments it before calling SendMessages), so over
any run from the initial state sentBatches equals the total number of flush
attempts — successes plus failures — and is always at least the error
counter. -/
theorem sentBatches_counts_flush_attempts (cfg : inputConfig)
    (m : Option (List ℕ)) (e : Option String) (s s' : workerState)
    (b : List ProducerMessage)
    (ticks : List (Option (List ℕ) × Option String))
    (hflush : tickStep cfg m e s = (s', some b)) :
    s'.sentBatches = s.sentBatches + 1 ∧
    (runSchedule cfg ticks initWorkerState).1.sentBatches
        = (runSchedule cfg ticks initWorkerState).2.length ∧
    (runSchedule cfg ticks initWorkerState).1.errors
        ≤ (runSchedule cfg ticks initWorkerState).1.sentBatches := by
  obtain ⟨p, -, -, -, -, hsent, -⟩ := tickStep_flush_cases cfg m e s s' b hflush
  obtain ⟨-, h2, h3, -⟩ := runSchedule_invariants cfg ticks initWorkerState
  have hi1 : initWorkerState.sentBatches = 0 := rfl
  have hi2 : initWorkerState.errors = 0 := rfl
  exact ⟨hsent, by omega, by omega⟩

/-- Witness for C10 at a concrete failed flush and a concrete two-tick run. -/
theorem sentBatches_counts_flush_attempts_witness :
    (⟨[], 1, 1⟩ : workerState).sentBatches = initWorkerState.sentBatches + 1 ∧
    (runSchedule cfgEx [(some [1], some "x"), (some [2], none)] initWorkerState).1.sentBatches
        = (runSchedule cfgEx [(some [1], some "x"), (some [2], none)] initWorkerState).2.length ∧
    (runSchedule cfgEx [(some [1], some "x"), (some [2], none)] initWorkerState).1.errors
        ≤ (runSchedule cfgEx [(some [1], some "x"), (some [2], none)] initWorkerState).1.sentBatches :=
  sentBatches_counts_flush_attempts cfgEx (some [7]) (some "send failed")
    initWorkerState ⟨[], 1, 1⟩ [BuildProducerMessage "loadtest" [7]]
    [(some [1], some "x"), (some [2], none)] rfl

/-- A configuration with 4 producer workers but only 1 creator worker. -/
def cfgStopBug : inputConfig := ⟨1000, ⟨4, 1⟩, 10, "loadtest", ["broker:9092"]⟩

/-- A broker that opens every connection successfully (handle = index). -/
def allOpensOk : ℕ → Except String ℕ := fun i => .ok i

/-- C8: the stop channel is created with capacity config.Workers.creators
(producer.go line 42), not the producer worker count, while StopProducers
sends one stop signal per producer worker.  With 4 producers and 1 creator
the capacity is 1, strictly below the 4 signals sent, so the broadcast is not
guaranteed non-blocking. -/
theorem stop_channel_capacity_below_producer_count :
    (KafkaProducer cfgStopBug allOpensOk).stopCapacity = 1 ∧
    stopSignalsSent (KafkaProducer cfgStopBug allOpensOk) = 4 ∧
    (KafkaProducer cfgStopBug allOpensOk).stopCapacity
      < stopSignalsSent (KafkaProducer cfgStopBug allOpensOk) := by
  have h1 : (KafkaProducer cfgStopBug allOpensOk).stopCapacity = 1 := rfl
  have h2 : stopSignalsSent (KafkaProducer cfgStopBug allOpensOk) = 4 := rfl
  exact ⟨h1, h2, by rw [h1, h2]; norm_num⟩

/-- A configuration with 12 producer workers, so 3 clients are required. -/
def cfgConnBug : inputConfig := ⟨1000, ⟨12, 12⟩, 10, "loadtest", ["broker:9092"]⟩

/-- A broker where opening the first connection succeeds (handle 100) and
every later open fails. -/
def failingOpen : ℕ → Except String ℕ :=
  fun i => if i = 0 then .ok 100 else .error "connection refused"

/-- C9: when opening the second of three clients fails, createClients returns
the partially-filled slice (the already-opened client 100 still in it,
never closed — the source has no close call) together with the error, and the
KafkaProducer constructor still returns a pool built from that partial slice
(nil entries included): the error is only printed, not propagated, so a
partial pool IS returned to the caller. -/
theorem kafkaProducer_partial_pool_on_error :
    createClients 3 failingOpen
      = ([some 100, none, none], some "connection refused") ∧
    (KafkaProducer cfgConnBug failingOpen).clients = [some 100, none, none] ∧
    none ∈ (KafkaProducer cfgConnBug failingOpen).clients := by
  have hceil : (computeClientAmount ((cfgConnBug.Workers.producers : ℕ) : ℚ)
      ((ProducerPerWorker : ℕ) : ℚ)).toNat = 3 := by
    have h3 : computeClientAmount ((cfgConnBug.Workers.producers : ℕ) : ℚ)
        ((ProducerPerWorker : ℕ) : ℚ) = 3 := by
      show (⌈((12 : ℕ) : ℚ) / ((5 : ℕ) : ℚ)⌉ : ℤ) = 3
      rw [Int.ceil_eq_iff]; push_cast; norm_num
    rw [h3]
    rfl
  have hclients : (KafkaProducer cfgConnBug failingOpen).clients
      = (createClients 3 failingOpen).1 := by
    show (createClients ((computeClientAmount ((cfgConnBug.Workers.producers : ℕ) : ℚ)
        ((ProducerPerWorker : ℕ) : ℚ)).toNat) failingOpen).1
      = (createClients 3 failingOpen).1
    rw [hceil]
  refine ⟨rfl, ?_, ?_⟩
  · rw [hclients]
    rfl
  · rw [hclients]
    decide

end KafkaLoad
